import Mathlib

/-!
Shallow embedding of the Bluetooth LED Matrix firmware
(src/Bluetooth LED Matrix FW): the color fading and random-target logic
of include/color.h, the button debouncer of src/Button.cpp, and the
Bluetooth frame decoder, pixel buffer, mode machine and response writer
of src/main.cpp.
-/

/-- Model of struct color_t (include/color.h): three 8-bit RGB channels,
represented as natural numbers kept below 256 by the operations. -/
structure Color where
  r : Nat
  g : Nat
  b : Nat
deriving DecidableEq, Repr

/-- One channel of color_t::fadeTo (color.h line 40-42): step one unit
toward the target channel, unchanged when already equal. -/
def chanFade (x t : Nat) : Nat :=
  if x ≠ t then (if x < t then x + 1 else x - 1) else x

/-- Model of color_t::fadeTo (color.h lines 39-43), as a function from the
current color and the target color to the new current color. -/
def Color.fadeTo (c t : Color) : Color :=
  ⟨chanFade c.r t.r, chanFade c.g t.g, chanFade c.b t.b⟩

/-- The per-channel distances to the target, maximised over the three
channels: the bound max(|dr|,|dg|,|db|) of the fade-convergence property. -/
def fadeDist (c t : Color) : Nat :=
  max (Nat.dist c.r t.r) (max (Nat.dist c.g t.g) (Nat.dist c.b t.b))

/-- Model of color_t::getRnd (color.h line 62): random(n) is modelled by
an explicit draw v reduced modulo n, so getRnd high draws from [0,256)
when high is true and from [0,8) otherwise. -/
def getRnd (high : Bool) (v : Nat) : Nat :=
  v % (if high then 256 else 8)

/-- Model of color_t::setRandom (color.h lines 48-53) with the random
draws as explicit inputs: choice models random(3) (reduced mod 3), and
vr, vg, vb the three random draws inside getRnd. The channel equal to
choice % 3 is passed high = true, the other two high = false. -/
def setRandom (choice vr vg vb : Nat) : Color :=
  ⟨getRnd (choice % 3 == 0) vr, getRnd (choice % 3 == 1) vg, getRnd (choice % 3 == 2) vb⟩

/-- Model of Button::state_t (include/Button.hpp lines 23-27). -/
inductive BtnState where
  | released
  | pressed
  | pressedContinuously
deriving DecidableEq, Repr

/-- Hidden static state of Button::read (src/Button.cpp lines 5-7):
the last window-boundary time, the previous window's raw level, and the
may-return flag that enforces one reported event per hold. -/
structure BtnSt where
  readTime : Nat
  wasPressed : Bool
  mayReturn : Bool
deriving DecidableEq, Repr

/-- Wrap-around subtraction on 32-bit timestamps, modelling the uint32
expression millis() - read of src/Button.cpp line 10. -/
def sub32 (a b : Nat) : Nat :=
  (a % 2 ^ 32 + 2 ^ 32 - b % 2 ^ 32) % 2 ^ 32

/-- Body of the window-boundary branch of Button::read (src/Button.cpp
lines 11-34): classify the sampled level against the previous window,
update the hidden state, and suppress repeated reports within one hold.
Returns the new hidden state (readTime excluded) and the returned value. -/
def windowStep (st : BtnSt) (pressed : Bool) : BtnSt × BtnState :=
  let rv := if st.wasPressed then
      (if pressed then BtnState.pressedContinuously else BtnState.pressed)
    else BtnState.released
  let wp := if pressed && !st.wasPressed then true
    else if !pressed then false else st.wasPressed
  let st1 : BtnSt := { st with wasPressed := wp }
  if st.mayReturn && rv != BtnState.released then
    ({ st1 with mayReturn := false }, rv)
  else if rv = BtnState.released then
    ({ st1 with mayReturn := true }, BtnState.released)
  else
    (st1, BtnState.released)

/-- Model of Button::read (src/Button.cpp lines 3-38): if less than 200ms
(in wrap-around uint32 arithmetic) have passed since the last window
boundary, return RELEASED without touching the hidden state; otherwise
record the new boundary time and run the window classification. The
pressed argument models the sampled level state = !digitalRead(pin). -/
def buttonRead (st : BtnSt) (pressed : Bool) (now : Nat) : BtnSt × BtnState :=
  if sub32 now st.readTime > 200 then
    windowStep { st with readTime := now } pressed
  else (st, BtnState.released)

/-- Run a sequence of window-boundary samples through windowStep,
collecting the value returned at each window. -/
def runWindows (st : BtnSt) (ps : List Bool) : BtnSt × List BtnState :=
  match ps with
  | [] => (st, [])
  | p :: rest =>
    let q := windowStep st p
    let r := runWindows q.1 rest
    (r.1, q.2 :: r.2)

/-- Model of cmd_t (src/main.cpp lines 43-48). -/
inductive Cmd where
  | none
  | getLeds
  | setLeds
  | setLedsAll
deriving DecidableEq, Repr

/-- Wire value of each command tag (the values of cmd_t). -/
def Cmd.toByte : Cmd → Nat
  | Cmd.none => 0
  | Cmd.getLeds => 1
  | Cmd.setLeds => 2
  | Cmd.setLedsAll => 3

/-- Model of state_t (src/main.cpp lines 50-56). -/
inductive Status where
  | ok
  | invalidDataLength
  | ledOutOfRange
  | invalidState
  | invalidCommand
deriving DecidableEq, Repr

/-- Wire value of each status (the values of state_t). -/
def Status.toByte : Status → Nat
  | Status.ok => 0x00
  | Status.invalidDataLength => 0x01
  | Status.ledOutOfRange => 0x02
  | Status.invalidState => 0xFE
  | Status.invalidCommand => 0xFF

/-- Model of mode_t (src/main.cpp lines 60-62). OFF is the spec's Idle,
RANDOM the spec's Autonomous, BT the spec's ProtocolControlled. -/
inductive Mode where
  | off
  | random
  | bt
deriving DecidableEq, Repr

/-- Model of the Adafruit_NeoPixel pixel buffer (an external library
collaborator, abstracted as the spec's Display driver capability): a
fixed LED count and a per-index color map. numLEDs is LED_COUNT = 64 in
the firmware; it is kept as a field so that buffer-size-parametric
properties can be stated. -/
structure Strip where
  numLEDs : Nat
  px : Nat → Color

/-- Library setPixelColor semantics: writes of indices at or beyond
numLEDs are ignored; channel arguments are taken as uint8_t. -/
def Strip.setPixelColor (s : Strip) (n r g b : Nat) : Strip :=
  if n < s.numLEDs then
    { s with px := fun i => if i = n then ⟨r % 256, g % 256, b % 256⟩ else s.px i }
  else s

/-- Library fill semantics: every pixel set to the packed color; the
packing Adafruit_NeoPixel::Color(r,g,b) takes uint8_t channels. -/
def Strip.fill (s : Strip) (c : Color) : Strip :=
  { s with px := fun _ => ⟨c.r % 256, c.g % 256, c.b % 256⟩ }

/-- Library getPixelColor semantics: the packed 32-bit color
(r much-shifted 16) | (g much-shifted 8) | b of the stored 8-bit channels, 0 when the
index is out of range. -/
def Strip.getPixelColor (s : Strip) (n : Nat) : Nat :=
  if n < s.numLEDs then
    (s.px n).r % 256 * 65536 + (s.px n).g % 256 * 256 + (s.px n).b % 256
  else 0

/-- Well-formed strip: every stored channel fits in a byte, as the real
library's byte-per-channel storage guarantees. -/
def Strip.wf (s : Strip) : Prop :=
  ∀ i, (s.px i).r < 256 ∧ (s.px i).g < 256 ∧ (s.px i).b < 256

/-- Per-frame decoding state of loop() (src/main.cpp lines 160-163)
together with the shared pixel buffer and operating mode the handlers
mutate: the byte counter count (starts at -1), the recognized command,
the frame status (starts at INVALID_DATA_LENGTH), the scratch ledData
array (modelled as an index-to-byte map; its initial content is the
indeterminate content of the stack array), the strip and the mode. -/
structure FrameSt where
  count : Int
  cmd : Cmd
  state : Status
  ledData : Nat → Nat
  strip : Strip
  mode : Mode

/-- Model of cmdNone (src/main.cpp lines 319-325): a byte matching a
known tag becomes the command, any other byte sets INVALID_COMMAND. -/
def cmdNone (st : FrameSt) (data : Nat) : FrameSt :=
  if data = 1 ∨ data = 2 ∨ data = 3 then
    { st with cmd := if data = 1 then Cmd.getLeds
              else if data = 2 then Cmd.setLeds else Cmd.setLedsAll }
  else { st with state := Status.invalidCommand }

/-- Snapshot loop of cmdGetLeds (src/main.cpp lines 348-354): for every
LED index i below numLEDs write the quadruple (i, r, g, b) of its packed
color into ledData at offsets 4i..4i+3; bytes beyond numLEDs*4 keep the
old array content. The index byte is the uint8_t loop variable i. -/
def snapTo (s : Strip) (old : Nat → Nat) : Nat → Nat := fun j =>
  if j < s.numLEDs * 4 then
    if j % 4 = 0 then (j / 4) % 256
    else if j % 4 = 1 then s.getPixelColor (j / 4) / 65536 % 256
    else if j % 4 = 2 then s.getPixelColor (j / 4) / 256 % 256
    else s.getPixelColor (j / 4) % 256
  else old j

/-- Model of cmdGetLeds (src/main.cpp lines 342-360). -/
def cmdGetLeds (st : FrameSt) : FrameSt :=
  if st.count < 0 then { st with state := Status.invalidState }
  else if st.count = 0 ∧ (st.state = Status.invalidDataLength ∨ st.state = Status.ok) then
    { st with ledData := snapTo st.strip st.ledData, state := Status.ok }
  else st

/-- Model of cmdSetLeds (src/main.cpp lines 378-404). Note that the
out-of-range test of line 391 compares the group index i = count / 4
against LED_COUNT, exactly as the source does. -/
def cmdSetLeds (st : FrameSt) (data : Nat) : FrameSt :=
  if st.count < 0 then { st with state := Status.invalidState }
  else if st.count < (st.strip.numLEDs * 4 : Int) ∧
      (st.state = Status.invalidDataLength ∨ st.state = Status.ok) then
    let ld : Nat → Nat := fun j => if j = st.count.toNat then data else st.ledData j
    if st.count % 4 = 3 then
      let i : Nat := st.count.toNat / 4
      if st.strip.numLEDs ≤ i then
        { st with ledData := ld, state := Status.ledOutOfRange }
      else
        { st with
          ledData := ld,
          strip := st.strip.setPixelColor (ld (i * 4)) (ld (i * 4 + 1))
                     (ld (i * 4 + 2)) (ld (i * 4 + 3)),
          mode := Mode.bt, state := Status.ok }
    else { st with ledData := ld }
  else st

/-- Model of cmdSetLedsAll (src/main.cpp lines 421-439): every payload
byte with count below 3 is stored and immediately triggers a full fill
from ledData[0..2], a flush, mode BT and status OK. -/
def cmdSetLedsAll (st : FrameSt) (data : Nat) : FrameSt :=
  if st.count < 0 then { st with state := Status.invalidState }
  else if st.count < 3 ∧ (st.state = Status.invalidDataLength ∨ st.state = Status.ok) then
    let ld : Nat → Nat := fun j => if j = st.count.toNat then data else st.ledData j
    { st with
      ledData := ld,
      strip := st.strip.fill ⟨ld 0, ld 1, ld 2⟩,
      mode := Mode.bt, state := Status.ok }
  else st

/-- One iteration of the drain loop of loop() (src/main.cpp lines
165-197): dispatch the byte on the current command, with the
fallthrough from the NONE case into GET_LEDS (count set to 0 first)
when the byte just recognized GET_LEDS, then increment count. The read
int is cast to uint8_t, modelled by reducing the byte mod 256. -/
def processByte (st : FrameSt) (d : Nat) : FrameSt :=
  let data := d % 256
  let st1 :=
    match st.cmd with
    | Cmd.none =>
      let st2 := cmdNone st data
      if st2.cmd = Cmd.getLeds then cmdGetLeds { st2 with count := 0 } else st2
    | Cmd.getLeds => cmdGetLeds st
    | Cmd.setLeds => cmdSetLeds st data
    | Cmd.setLedsAll => cmdSetLedsAll st data
  { st1 with count := st1.count + 1 }

/-- Frame-initial decoding state (src/main.cpp lines 160-163): count -1,
command NONE, status INVALID_DATA_LENGTH, with the given indeterminate
ledData content, pixel buffer and mode. -/
def initSt (s : Strip) (ld : Nat → Nat) (m : Mode) : FrameSt :=
  { count := -1, cmd := Cmd.none, state := Status.invalidDataLength,
    ledData := ld, strip := s, mode := m }

/-- Drain one frame: process, in order, every byte available at poll
time (src/main.cpp lines 165-197). -/
def processFrame (st : FrameSt) (bytes : List Nat) : FrameSt :=
  bytes.foldl processByte st

/-- The first numLEDs*4 bytes of ledData, as written back for GET_LEDS
(src/main.cpp line 209 passes ledData with length LED_COUNT * 4). -/
def ledBytes (st : FrameSt) : List Nat :=
  (List.range (st.strip.numLEDs * 4)).map st.ledData

/-- Response selection of loop() (src/main.cpp lines 203-218) combined
with btRespond (lines 275-305): tag byte, status byte, and the ledData
payload only for a successful GET_LEDS; a successful NONE command sends
nothing (the "should not happen" branch). -/
def respond (st : FrameSt) : List Nat :=
  if st.state = Status.ok then
    match st.cmd with
    | Cmd.none => []
    | Cmd.getLeds => st.cmd.toByte :: st.state.toByte :: ledBytes st
    | Cmd.setLeds => [st.cmd.toByte, st.state.toByte]
    | Cmd.setLedsAll => [st.cmd.toByte, st.state.toByte]
  else [st.cmd.toByte, st.state.toByte]

/-- Button dispatch of loop() (src/main.cpp lines 117-130): PRESSED sets
mode RANDOM, PRESSED_CONTINUOUSLY sets mode OFF, RELEASED leaves it. -/
def buttonDispatch (m : Mode) (e : BtnState) : Mode :=
  match e with
  | BtnState.pressed => Mode.random
  | BtnState.pressedContinuously => Mode.off
  | BtnState.released => m

/-- Mode dispatch of loop() (src/main.cpp lines 132-155): in OFF the
device sleeps and on the button wake interrupt resumes with mode RANDOM;
in RANDOM the animator runs (mode unchanged); in BT nothing happens. -/
def modeDispatch (m : Mode) : Mode :=
  match m with
  | Mode.off => Mode.random
  | Mode.random => Mode.random
  | Mode.bt => Mode.bt

/-- Mode after one loop() tick: button dispatch, then mode dispatch,
then the serial drain of the available bytes (an empty list models a
tick with no bytes available, where loop() returns at line 158 before
the frame state is even created). -/
def tickMode (m : Mode) (e : BtnState) (s : Strip) (ld : Nat → Nat)
    (bytes : List Nat) : Mode :=
  (processFrame (initSt s ld (modeDispatch (buttonDispatch m e))) bytes).mode

/-- One (index, r, g, b) group of a SET_LEDS payload. -/
structure LedGroup where
  n : Nat
  r : Nat
  g : Nat
  b : Nat

/-- Payload bytes of a list of SET_LEDS groups, in wire order. -/
def groupBytes : List LedGroup → List Nat
  | [] => []
  | g :: gs => g.n :: g.r :: g.g :: g.b :: groupBytes gs

/-- Apply a list of SET_LEDS groups to the strip, in order. -/
def applyGroups (s : Strip) : List LedGroup → Strip
  | [] => s
  | g :: gs => applyGroups (s.setPixelColor g.n g.r g.g g.b) gs

/-- Last color a group list writes to index i, if any: later groups take
precedence over earlier ones. -/
def lastColorWrite : List LedGroup → Nat → Option Color
  | [], _ => Option.none
  | g :: gs, i =>
    match lastColorWrite gs i with
    | Option.some c => Option.some c
    | Option.none => if g.n = i then Option.some ⟨g.r, g.g, g.b⟩ else Option.none

section ColorProofs

/-- Distance to the target drops by exactly one on each fade step of a
channel that has not yet reached it. -/
theorem chanFade_dist_succ (x t : Nat) (h : x ≠ t) :
    Nat.dist (chanFade x t) t + 1 = Nat.dist x t := by
  simp only [chanFade, if_pos h, Nat.dist]
  rcases Nat.lt_or_ge x t with hlt | hge
  · rw [if_pos hlt]; omega
  · rw [if_neg (by omega)]; omega

/-- A channel equal to its target is a fixed point of the fade step. -/
theorem chanFade_self (t : Nat) : chanFade t t = t := by
  simp [chanFade]

/-- Iterating the channel fade step for at least the channel distance
reaches the target. -/
theorem chanFade_iter_reaches (n : Nat) :
    ∀ x t : Nat, Nat.dist x t ≤ n → (fun y => chanFade y t)^[n] x = t := by
  induction n with
  | zero =>
    intro x t h
    have : x = t := by simp only [Nat.dist] at h; omega
    simpa using this
  | succ n ih =>
    intro x t h
    rw [Function.iterate_succ_apply]
    by_cases hx : x = t
    · rw [hx, chanFade_self]
      exact ih t t (by simp [Nat.dist])
    · have hd := chanFade_dist_succ x t hx
      exact ih (chanFade x t) t (by omega)

/-- Color fading acts channelwise under iteration. -/
theorem fadeTo_iter_channels (n : Nat) (t : Color) :
    ∀ c : Color, (fun y => Color.fadeTo y t)^[n] c =
      ⟨(fun y => chanFade y t.r)^[n] c.r,
       (fun y => chanFade y t.g)^[n] c.g,
       (fun y => chanFade y t.b)^[n] c.b⟩ := by
  induction n with
  | zero => intro c; simp
  | succ n ih =>
    intro c
    rw [Function.iterate_succ_apply, Function.iterate_succ_apply,
        Function.iterate_succ_apply, Function.iterate_succ_apply]
    exact ih (Color.fadeTo c t)

/-- C7 — confirmed. Iterating fadeTo with a fixed target t on a start
color c reaches t in max(|dr|,|dg|,|db|) = fadeDist c t calls (hence in
at most that many); each single call moves each channel by exactly one
unit toward the corresponding target channel, leaves an equal channel
unchanged, and never moves a channel past its target (no overshoot). -/
theorem C7_fade_to_converges (c t : Color) :
    ((fun y => Color.fadeTo y t)^[fadeDist c t] c = t) ∧
    (∀ a b : Color, a.fadeTo b = ⟨chanFade a.r b.r, chanFade a.g b.g, chanFade a.b b.b⟩) ∧
    (∀ x y : Nat,
      (x < y → chanFade x y = x + 1) ∧
      (y < x → chanFade x y = x - 1) ∧
      (x = y → chanFade x y = x) ∧
      (x ≤ y → chanFade x y ≤ y) ∧
      (y ≤ x → y ≤ chanFade x y)) := by
  refine ⟨?_, fun a b => rfl, fun x y => ?_⟩
  · rw [fadeTo_iter_channels]
    have hr := chanFade_iter_reaches (fadeDist c t) c.r t.r
      (le_trans (by simp [fadeDist]) le_rfl)
    have hg := chanFade_iter_reaches (fadeDist c t) c.g t.g
      (by simp [fadeDist])
    have hb := chanFade_iter_reaches (fadeDist c t) c.b t.b
      (by simp [fadeDist])
    rw [hr, hg, hb]
  · refine ⟨?_, ?_, ?_, ?_, ?_⟩ <;> intro h <;> simp only [chanFade] <;>
      first
      | (rw [if_pos (by omega), if_pos h])
      | (rw [if_pos (by omega), if_neg (by omega)])
      | (rw [if_neg (by omega)])
      | (split <;> [skip; omega] <;> split <;> omega)

/-- Witness for C7 at a concrete start and target. -/
theorem C7_fade_to_converges_witness :
    (fun y => Color.fadeTo y ⟨3, 0, 9⟩)^[9] ⟨0, 0, 0⟩ = ⟨3, 0, 9⟩ ∧
    chanFade 2 7 = 3 := by
  have h := C7_fade_to_converges ⟨0, 0, 0⟩ ⟨3, 0, 9⟩
  have hd : fadeDist ⟨0, 0, 0⟩ ⟨3, 0, 9⟩ = 9 := by decide
  exact ⟨by rw [← hd]; exact h.1, (h.2.2 2 7).1 (by decide)⟩

/-- C5 — counterexample. With the random draws made explicit (choice of
dominant channel 0, draws 200, 5, 5) the new target is (200, 5, 5): it is
not the case that exactly one of the three channels lies in the narrow
range [0,8) — here two of them do, and the randomly chosen dominant
channel (r) does not. -/
theorem C5_set_random_counterexample :
    setRandom 0 200 5 5 = ⟨200, 5, 5⟩ ∧
    ¬((if (setRandom 0 200 5 5).r < 8 then 1 else 0) +
      (if (setRandom 0 200 5 5).g < 8 then 1 else 0) +
      (if (setRandom 0 200 5 5).b < 8 then 1 else 0) = 1) := by
  decide

/-- C5 — amended. When a pixel's current color equals its target, the
newly drawn random target has its randomly chosen dominant channel drawn
from the full range [0,256) and each of the other two channels drawn
from the narrow range [0,8): exactly the non-dominant channels are
constrained to [0,8), the opposite of the claimed distribution. -/
theorem C5_set_random_amended (choice vr vg vb : Nat) :
    (choice % 3 = 0 → (setRandom choice vr vg vb).r = vr % 256 ∧
      (setRandom choice vr vg vb).g = vg % 8 ∧ (setRandom choice vr vg vb).b = vb % 8) ∧
    (choice % 3 = 1 → (setRandom choice vr vg vb).r = vr % 8 ∧
      (setRandom choice vr vg vb).g = vg % 256 ∧ (setRandom choice vr vg vb).b = vb % 8) ∧
    (choice % 3 = 2 → (setRandom choice vr vg vb).r = vr % 8 ∧
      (setRandom choice vr vg vb).g = vg % 8 ∧ (setRandom choice vr vg vb).b = vb % 256) := by
  refine ⟨fun h => ?_, fun h => ?_, fun h => ?_⟩ <;>
    simp [setRandom, getRnd, h]

/-- Witness for C5 at a concrete random draw. -/
theorem C5_set_random_amended_witness :
    (setRandom 0 200 5 5).r = 200 % 256 ∧ (setRandom 0 200 5 5).g = 5 % 8 ∧
    (setRandom 0 200 5 5).b = 5 % 8 :=
  (C5_set_random_amended 0 200 5 5).1 (by decide)

end ColorProofs


section ButtonProofs

/-- First pressed window of a hold: classified Released (the press is
only recorded), the hold is remembered, and reporting is re-armed. -/
theorem windowStep_first_press (st : BtnSt) (h : st.wasPressed = false) :
    windowStep st true = ({ st with wasPressed := true, mayReturn := true },
      BtnState.released) := by
  obtain ⟨rt, wp, mr⟩ := st
  simp only at h
  subst h
  cases mr <;> rfl

/-- Second pressed window of a hold with reporting armed: the single
PressedContinuously report of the hold, which disarms reporting. -/
theorem windowStep_cont_report (st : BtnSt) (h1 : st.wasPressed = true)
    (h2 : st.mayReturn = true) :
    windowStep st true = ({ st with mayReturn := false },
      BtnState.pressedContinuously) := by
  obtain ⟨rt, wp, mr⟩ := st
  simp only at h1 h2
  subst h1; subst h2
  rfl

/-- Later pressed windows of a hold: the report is suppressed and the
hidden state is unchanged. -/
theorem windowStep_cont_suppressed (st : BtnSt) (h1 : st.wasPressed = true)
    (h2 : st.mayReturn = false) :
    windowStep st true = (st, BtnState.released) := by
  obtain ⟨rt, wp, mr⟩ := st
  simp only at h1 h2
  subst h1; subst h2
  rfl

/-- Release window ending a single-window press with reporting armed:
the Pressed report, which disarms reporting. -/
theorem windowStep_press_report (st : BtnSt) (h1 : st.wasPressed = true)
    (h2 : st.mayReturn = true) :
    windowStep st false = ({ st with wasPressed := false, mayReturn := false },
      BtnState.pressed) := by
  obtain ⟨rt, wp, mr⟩ := st
  simp only at h1 h2
  subst h1; subst h2
  rfl

/-- Release window ending a multi-window hold (reporting already used):
the Pressed edge is suppressed and reporting stays disarmed. -/
theorem windowStep_press_suppressed (st : BtnSt) (h1 : st.wasPressed = true)
    (h2 : st.mayReturn = false) :
    windowStep st false = ({ st with wasPressed := false },
      BtnState.released) := by
  obtain ⟨rt, wp, mr⟩ := st
  simp only at h1 h2
  subst h1; subst h2
  rfl

/-- Released window with no preceding press: classified Released and
reporting re-armed. -/
theorem windowStep_idle (st : BtnSt) (h : st.wasPressed = false) :
    windowStep st false = ({ st with mayReturn := true }, BtnState.released) := by
  obtain ⟨rt, wp, mr⟩ := st
  simp only at h
  subst h
  cases mr <;> rfl

/-- Remaining hold windows followed by two released windows, starting
just after the hold has been reported: only Released classifications,
with reporting re-armed at the end. -/
theorem runWindows_hold_tail (m : Nat) :
    ∀ st : BtnSt, st.wasPressed = true → st.mayReturn = false →
      runWindows st (List.replicate m true ++ [false, false]) =
        ({ st with wasPressed := false, mayReturn := true },
         List.replicate m BtnState.released ++ [BtnState.released, BtnState.released]) := by
  induction m with
  | zero =>
    intro st h1 h2
    simp only [List.replicate, List.nil_append, runWindows,
      windowStep_press_suppressed st h1 h2]
    rw [windowStep_idle { st with wasPressed := false } rfl]
  | succ m ih =>
    intro st h1 h2
    rw [List.replicate_succ, List.cons_append]
    simp only [runWindows, windowStep_cont_suppressed st h1 h2]
    rw [ih st h1 h2]
    simp [List.replicate_succ]

/-- C8 — confirmed. (1) A call made before the current 200ms window has
elapsed returns Released and leaves the hidden state untouched. (2) A
hold spanning k >= 2 windows, followed by release, yields
PressedContinuously on exactly one window of the hold: the produced
window classifications are Released, then PressedContinuously, then only
Released, so the hold is reported exactly once and the aliasing Pressed
edge at its release is suppressed. (3) A press observed in exactly one
window followed by release yields Pressed exactly once. (4) Sustained
released input yields, by the second window at the latest, a window
classified Released that re-arms reporting for the next hold. -/
theorem C8_button_debounce :
    (∀ (st : BtnSt) (p : Bool) (now : Nat), ¬ sub32 now st.readTime > 200 →
      buttonRead st p now = (st, BtnState.released)) ∧
    (∀ (st : BtnSt) (k : Nat), st.wasPressed = false → 2 ≤ k →
      (runWindows st (List.replicate k true ++ [false, false])).2 =
        BtnState.released :: BtnState.pressedContinuously ::
          (List.replicate (k - 2) BtnState.released ++
            [BtnState.released, BtnState.released]) ∧
      ((runWindows st (List.replicate k true ++ [false, false])).2.count
        BtnState.pressedContinuously = 1) ∧
      ((runWindows st (List.replicate k true ++ [false, false])).2.count
        BtnState.pressed = 0)) ∧
    (∀ st : BtnSt, st.wasPressed = false →
      (runWindows st [true, false, false]).2 =
        [BtnState.released, BtnState.pressed, BtnState.released]) ∧
    (∀ st : BtnSt, (runWindows st [false, false]).2.drop 1 = [BtnState.released] ∧
      (runWindows st [false, false]).1.mayReturn = true) := by
  refine ⟨?_, ?_, ?_, ?_⟩
  · intro st p now h
    simp [buttonRead, h]
  · intro st k h hk
    obtain ⟨m, rfl⟩ : ∃ m, k = m + 2 := ⟨k - 2, by omega⟩
    have hrep : List.replicate (m + 2) true = true :: true :: List.replicate m true := by
      simp [List.replicate_succ]
    rw [hrep]
    have hfull :
        runWindows st (true :: true :: List.replicate m true ++ [false, false]) =
          ({ st with wasPressed := false, mayReturn := true },
           BtnState.released :: BtnState.pressedContinuously ::
             (List.replicate m BtnState.released ++
               [BtnState.released, BtnState.released])) := by
      simp only [List.cons_append, runWindows, windowStep_first_press st h]
      rw [windowStep_cont_report { st with wasPressed := true, mayReturn := true } rfl rfl]
      dsimp only [List.append_eq]
      rw [runWindows_hold_tail m { st with wasPressed := true, mayReturn := false } rfl rfl]
    rw [hfull]
    refine ⟨by simp, ?_, ?_⟩ <;>
      simp [List.count_cons, List.count_append, List.count_replicate]
  · intro st h
    simp only [runWindows, windowStep_first_press st h]
    rw [windowStep_press_report { st with wasPressed := true, mayReturn := true } rfl rfl]
    rw [windowStep_idle { st with wasPressed := false, mayReturn := false } rfl]
  · intro st
    by_cases hw : st.wasPressed
    · by_cases hm : st.mayReturn
      · simp only [runWindows, windowStep_press_report st hw hm]
        rw [windowStep_idle { st with wasPressed := false, mayReturn := false } rfl]
        simp
      · simp only [runWindows,
          windowStep_press_suppressed st hw (by simpa using hm)]
        rw [windowStep_idle { st with wasPressed := false } rfl]
        simp
    · simp only [runWindows, windowStep_idle st (by simpa using hw)]
      rw [windowStep_idle { st with mayReturn := true } (by simpa using hw)]
      simp

/-- Witness for C8 at a concrete hidden state, hold length and clock. -/
theorem C8_button_debounce_witness :
    buttonRead ⟨1000, false, true⟩ true 1100 = (⟨1000, false, true⟩, BtnState.released) ∧
    (runWindows ⟨0, false, true⟩ (List.replicate 4 true ++ [false, false])).2.count
      BtnState.pressedContinuously = 1 ∧
    (runWindows ⟨0, false, true⟩ [true, false, false]).2 =
      [BtnState.released, BtnState.pressed, BtnState.released] :=
  ⟨C8_button_debounce.1 ⟨1000, false, true⟩ true 1100 (by decide),
   ((C8_button_debounce.2.1 ⟨0, false, true⟩ 4 (by decide) (by decide)).2).1,
   C8_button_debounce.2.2.1 ⟨0, false, true⟩ (by decide)⟩

end ButtonProofs

section FrameHelpers

/-- None of the command handlers changes the recognized command. -/
theorem cmdGetLeds_cmd (st : FrameSt) : (cmdGetLeds st).cmd = st.cmd := by
  unfold cmdGetLeds
  repeat' split
  all_goals rfl

/-- Handler cmdGetLeds never changes the byte counter. -/
theorem cmdGetLeds_count (st : FrameSt) : (cmdGetLeds st).count = st.count := by
  unfold cmdGetLeds
  repeat' split
  all_goals rfl

/-- Handler cmdGetLeds never changes the strip. -/
theorem cmdGetLeds_strip (st : FrameSt) : (cmdGetLeds st).strip = st.strip := by
  unfold cmdGetLeds
  repeat' split
  all_goals rfl

/-- Handler cmdGetLeds never changes the mode. -/
theorem cmdGetLeds_mode (st : FrameSt) : (cmdGetLeds st).mode = st.mode := by
  unfold cmdGetLeds
  repeat' split
  all_goals rfl

/-- After the first payload byte of a GET_LEDS frame, subsequent bytes
are consumed without any effect on the frame state. -/
theorem cmdGetLeds_skip (st : FrameSt) (h : 1 ≤ st.count) : cmdGetLeds st = st := by
  unfold cmdGetLeds
  rw [if_neg (by omega), if_neg (by rintro ⟨h0, _⟩; omega)]

/-- Handler cmdSetLeds never changes the recognized command. -/
theorem cmdSetLeds_cmd (st : FrameSt) (d : Nat) : (cmdSetLeds st d).cmd = st.cmd := by
  simp only [cmdSetLeds]
  repeat' split
  all_goals rfl

/-- Handler cmdSetLeds never changes the byte counter. -/
theorem cmdSetLeds_count (st : FrameSt) (d : Nat) : (cmdSetLeds st d).count = st.count := by
  simp only [cmdSetLeds]
  repeat' split
  all_goals rfl

/-- Handler cmdSetLeds leaves the mode alone or forces it to BT. -/
theorem cmdSetLeds_mode (st : FrameSt) (d : Nat) :
    (cmdSetLeds st d).mode = st.mode ∨ (cmdSetLeds st d).mode = Mode.bt := by
  simp only [cmdSetLeds]
  repeat' split
  all_goals simp

/-- Handler cmdSetLedsAll never changes the recognized command. -/
theorem cmdSetLedsAll_cmd (st : FrameSt) (d : Nat) : (cmdSetLedsAll st d).cmd = st.cmd := by
  unfold cmdSetLedsAll
  repeat' split
  all_goals rfl

/-- Handler cmdSetLedsAll never changes the byte counter. -/
theorem cmdSetLedsAll_count (st : FrameSt) (d : Nat) :
    (cmdSetLedsAll st d).count = st.count := by
  unfold cmdSetLedsAll
  repeat' split
  all_goals rfl

/-- Handler cmdSetLedsAll leaves the mode alone or forces it to BT. -/
theorem cmdSetLedsAll_mode (st : FrameSt) (d : Nat) :
    (cmdSetLedsAll st d).mode = st.mode ∨ (cmdSetLedsAll st d).mode = Mode.bt := by
  unfold cmdSetLedsAll
  repeat' split
  all_goals simp

/-- Handler cmdNone changes only the command or the status. -/
theorem cmdNone_fields (st : FrameSt) (d : Nat) :
    (cmdNone st d).count = st.count ∧ (cmdNone st d).ledData = st.ledData ∧
    (cmdNone st d).strip = st.strip ∧ (cmdNone st d).mode = st.mode := by
  unfold cmdNone
  split
  all_goals exact ⟨rfl, rfl, rfl, rfl⟩

/-- One drain-loop iteration leaves the mode alone or forces it to BT. -/
theorem processByte_mode (st : FrameSt) (d : Nat) :
    (processByte st d).mode = st.mode ∨ (processByte st d).mode = Mode.bt := by
  unfold processByte
  cases hcmd : st.cmd
  case none =>
    dsimp only
    left
    split
    · rw [cmdGetLeds_mode]
      exact (cmdNone_fields st (d % 256)).2.2.2
    · exact (cmdNone_fields st (d % 256)).2.2.2
  case getLeds =>
    dsimp only
    left
    exact cmdGetLeds_mode st
  case setLeds =>
    dsimp only
    exact cmdSetLeds_mode st (d % 256)
  case setLedsAll =>
    dsimp only
    exact cmdSetLedsAll_mode st (d % 256)

/-- Draining a frame with the mode already BT keeps the mode BT. -/
theorem processFrame_mode_bt (bytes : List Nat) :
    ∀ st : FrameSt, st.mode = Mode.bt → (processFrame st bytes).mode = Mode.bt := by
  induction bytes with
  | nil => intro st h; exact h
  | cons b rest ih =>
    intro st h
    have hb := processByte_mode st b
    exact ih (processByte st b) (by rcases hb with hb | hb <;> rw [hb] <;> exact h)

end FrameHelpers

section ModeProofs

/-- C9 — confirmed. A Pressed button event sets the mode to Autonomous
(RANDOM) from any mode, a PressedContinuously event sets it to Idle
(OFF), and a tick without a button event starting in ProtocolControlled
(BT) leaves the mode BT whatever bytes the serial drain processes:
protocol-set colors are sticky, with no timeout back to Autonomous. -/
theorem C9_mode_transitions :
    (∀ m : Mode, buttonDispatch m BtnState.pressed = Mode.random) ∧
    (∀ m : Mode, buttonDispatch m BtnState.pressedContinuously = Mode.off) ∧
    (∀ (s : Strip) (ld : Nat → Nat) (bytes : List Nat),
      tickMode Mode.bt BtnState.released s ld bytes = Mode.bt) :=
  ⟨fun _ => rfl, fun _ => rfl, fun _ _ bytes => processFrame_mode_bt bytes _ rfl⟩

end ModeProofs

section InvalidProofs

/-- Processing a byte that matches no command tag while no command has
been recognized sets INVALID_COMMAND and advances the counter only. -/
theorem processByte_invalid_byte (st : FrameSt) (b : Nat) (hcmd : st.cmd = Cmd.none)
    (hb : ¬(b % 256 = 1 ∨ b % 256 = 2 ∨ b % 256 = 3)) :
    processByte st b =
      { st with state := Status.invalidCommand, count := st.count + 1 } := by
  simp only [processByte, hcmd, cmdNone, if_neg hb]
  rw [if_neg (by simp [hcmd])]

/-- A frame whose remaining bytes all fail to match a command tag keeps
command NONE and status INVALID_COMMAND once it is there. -/
theorem processFrame_stuck_invalid (bytes : List Nat) :
    ∀ st : FrameSt, st.cmd = Cmd.none → st.state = Status.invalidCommand →
      (∀ b ∈ bytes, ¬(b % 256 = 1 ∨ b % 256 = 2 ∨ b % 256 = 3)) →
      (processFrame st bytes).cmd = Cmd.none ∧
      (processFrame st bytes).state = Status.invalidCommand := by
  induction bytes with
  | nil => exact fun st h1 h2 _ => ⟨h1, h2⟩
  | cons b rest ih =>
    intro st h1 h2 hall
    have hstep := processByte_invalid_byte st b h1 (hall b (by simp))
    have hfold : processFrame st (b :: rest) = processFrame (processByte st b) rest := rfl
    rw [hfold, hstep]
    exact ih { st with state := Status.invalidCommand, count := st.count + 1 }
      h1 rfl (fun x hx => hall x (by simp [hx]))

/-- C10 — counterexample. The frame 0xAA 0x01 has an invalid first byte,
yet its two-byte error response is [0x01, 0xFF]: the tag byte echoes the
later 0x01 byte (captured as the command by cmdNone), not 0x00. -/
theorem C10_tag_echo_counterexample :
    respond (processFrame (initSt ⟨64, fun _ => ⟨0, 0, 0⟩⟩ (fun _ => 0) Mode.random)
      [0xAA, 0x01]) = [0x01, 0xFF] := by
  rfl

/-- C10 — amended. For every nonempty frame none of whose bytes matches
a valid command tag (0x01, 0x02 or 0x03 after the uint8_t cast), the
command stays NONE and the two-byte error response carries tag byte 0x00
(the internal NONE value) with status 0xFF, so the host receives a tag
matching no command it could have sent. A later byte that does match a
tag is captured as the command and becomes the response tag instead. -/
theorem C10_error_tag_amended (s : Strip) (ld : Nat → Nat) (m : Mode)
    (bytes : List Nat) (hne : bytes ≠ [])
    (hinv : ∀ b ∈ bytes, ¬(b % 256 = 1 ∨ b % 256 = 2 ∨ b % 256 = 3)) :
    (processFrame (initSt s ld m) bytes).cmd = Cmd.none ∧
    (processFrame (initSt s ld m) bytes).state = Status.invalidCommand ∧
    respond (processFrame (initSt s ld m) bytes) = [0x00, 0xFF] := by
  obtain ⟨b, rest, rfl⟩ := List.exists_cons_of_ne_nil hne
  have hstep := processByte_invalid_byte (initSt s ld m) b rfl (hinv b (by simp))
  have hrest : (processFrame (processByte (initSt s ld m) b) rest).cmd = Cmd.none ∧
      (processFrame (processByte (initSt s ld m) b) rest).state = Status.invalidCommand := by
    rw [hstep]
    exact processFrame_stuck_invalid rest _ rfl rfl (fun x hx => hinv x (by simp [hx]))
  have hfin : processFrame (initSt s ld m) (b :: rest) =
      processFrame (processByte (initSt s ld m) b) rest := rfl
  rw [hfin]
  refine ⟨hrest.1, hrest.2, ?_⟩
  rw [respond, if_neg (by rw [hrest.2]; intro h; exact Status.noConfusion h), hrest.1, hrest.2]
  rfl

/-- Witness for C10 at a concrete one-byte frame. -/
theorem C10_error_tag_amended_witness :
    respond (processFrame (initSt ⟨64, fun _ => ⟨0, 0, 0⟩⟩ (fun _ => 0) Mode.random)
      [0xAA]) = [0x00, 0xFF] :=
  (C10_error_tag_amended ⟨64, fun _ => ⟨0, 0, 0⟩⟩ (fun _ => 0) Mode.random [0xAA]
    (by simp) (by decide)).2.2

end InvalidProofs

section StateInvariant

/-- With a non-negative counter, cmdGetLeds never sets INVALID_STATE. -/
theorem cmdGetLeds_state_cases (st : FrameSt) (h : ¬ st.count < 0) :
    (cmdGetLeds st).state = st.state ∨ (cmdGetLeds st).state = Status.ok := by
  simp only [cmdGetLeds, if_neg h]
  split
  · exact Or.inr rfl
  · exact Or.inl rfl

/-- With a non-negative counter, cmdSetLeds never sets INVALID_STATE. -/
theorem cmdSetLeds_state_cases (st : FrameSt) (d : Nat) (h : ¬ st.count < 0) :
    (cmdSetLeds st d).state = st.state ∨ (cmdSetLeds st d).state = Status.ok ∨
    (cmdSetLeds st d).state = Status.ledOutOfRange := by
  simp only [cmdSetLeds, if_neg h]
  repeat' split
  all_goals simp

/-- With a non-negative counter, cmdSetLedsAll never sets INVALID_STATE. -/
theorem cmdSetLedsAll_state_cases (st : FrameSt) (d : Nat) (h : ¬ st.count < 0) :
    (cmdSetLedsAll st d).state = st.state ∨ (cmdSetLedsAll st d).state = Status.ok := by
  simp only [cmdSetLedsAll, if_neg h]
  repeat' split
  all_goals simp

/-- Handler cmdNone either keeps the status or sets INVALID_COMMAND. -/
theorem cmdNone_state_cases (st : FrameSt) (d : Nat) :
    (cmdNone st d).state = st.state ∨ (cmdNone st d).state = Status.invalidCommand := by
  unfold cmdNone
  split
  · exact Or.inl rfl
  · exact Or.inr rfl

/-- Handler cmdNone keeps the command NONE or sets it to the tag that the
byte matched. -/
theorem cmdNone_cmd_cases (st : FrameSt) (d : Nat) (h : st.cmd = Cmd.none) :
    (cmdNone st d).cmd = Cmd.none ∨ (cmdNone st d).cmd = Cmd.getLeds ∨
    (cmdNone st d).cmd = Cmd.setLeds ∨ (cmdNone st d).cmd = Cmd.setLedsAll := by
  unfold cmdNone
  repeat' split
  all_goals simp [h]

/-- Counter and status invariant of the drain loop: the counter never
drops below -1, a recognized command implies a non-negative counter, a
recognized GET_LEDS implies a positive counter, and the status is never
INVALID_STATE — the guard count less than 0 inside the handlers is dead
code in loop() because the dispatch switch sends the first byte (count
still -1) to cmdNone only. -/
def NoCmdInv (st : FrameSt) : Prop :=
  -1 ≤ st.count ∧ (st.cmd ≠ Cmd.none → 0 ≤ st.count) ∧
  (st.cmd = Cmd.getLeds → 1 ≤ st.count) ∧ st.state ≠ Status.invalidState

/-- One drain-loop iteration preserves the counter and status invariant. -/
theorem processByte_noCmdInv (st : FrameSt) (d : Nat) (h : NoCmdInv st) :
    NoCmdInv (processByte st d) := by
  obtain ⟨h1, h2, h3, h4⟩ := h
  unfold processByte
  cases hcmd : st.cmd
  case none =>
    dsimp only
    split
    case isTrue hget =>
      have hcc := cmdGetLeds_cmd { cmdNone st (d % 256) with count := 0 }
      have hct := cmdGetLeds_count { cmdNone st (d % 256) with count := 0 }
      have hsc := cmdGetLeds_state_cases { cmdNone st (d % 256) with count := 0 }
        (by simp)
      have hnsc := cmdNone_state_cases st (d % 256)
      refine ⟨by simp [hct], by simp [hct], by simp [hct], ?_⟩
      rcases hsc with hs | hs <;> simp only [hs]
      · rcases hnsc with hn | hn <;> simp [hn, h4]
      · simp
    case isFalse hget =>
      have hnsc := cmdNone_state_cases st (d % 256)
      have hncc := (cmdNone_fields st (d % 256)).1
      refine ⟨by simp [hncc]; omega, by simp [hncc]; omega, ?_, ?_⟩
      · intro hc
        exact absurd hc hget
      · rcases hnsc with hn | hn <;> simp [hn, h4]
  case getLeds =>
    dsimp only
    rw [cmdGetLeds_skip st (h3 hcmd)]
    have hc0 := h2 (by rw [hcmd]; intro h; exact Cmd.noConfusion h)
    exact ⟨by simp; omega, by simp; omega, by simp; omega, h4⟩
  case setLeds =>
    dsimp only
    have hc0 := h2 (by rw [hcmd]; intro h; exact Cmd.noConfusion h)
    have hcc := cmdSetLeds_cmd st (d % 256)
    have hct := cmdSetLeds_count st (d % 256)
    have hsc := cmdSetLeds_state_cases st (d % 256) (by omega)
    refine ⟨by simp [hct]; omega, by simp [hct]; omega, ?_, ?_⟩
    · intro hc
      have hcg : (cmdSetLeds st (d % 256)).cmd = Cmd.getLeds := hc
      rw [hcc, hcmd] at hcg
      exact Cmd.noConfusion hcg
    · rcases hsc with hs | hs | hs <;> simp [hs, h4]
  case setLedsAll =>
    dsimp only
    have hc0 := h2 (by rw [hcmd]; intro h; exact Cmd.noConfusion h)
    have hcc := cmdSetLedsAll_cmd st (d % 256)
    have hct := cmdSetLedsAll_count st (d % 256)
    have hsc := cmdSetLedsAll_state_cases st (d % 256) (by omega)
    refine ⟨by simp [hct]; omega, by simp [hct]; omega, ?_, ?_⟩
    · intro hc
      have hcg : (cmdSetLedsAll st (d % 256)).cmd = Cmd.getLeds := hc
      rw [hcc, hcmd] at hcg
      exact Cmd.noConfusion hcg
    · rcases hsc with hs | hs <;> simp [hs, h4]

/-- The whole frame drain preserves the counter and status invariant. -/
theorem processFrame_noCmdInv (bytes : List Nat) :
    ∀ st : FrameSt, NoCmdInv st → NoCmdInv (processFrame st bytes) := by
  induction bytes with
  | nil => exact fun st h => h
  | cons b rest ih =>
    intro st h
    exact ih (processByte st b) (processByte_noCmdInv st b h)

end StateInvariant

section C4Proofs

/-- C4 — counterexample. The bytes 5 255 0 0 (a SET_LEDS payload group
sent without any preceding command tag) end the frame with status
INVALID_COMMAND (0xFF on the wire), not INVALID_STATE (0xFE): a payload
byte arriving before any command tag is treated as a (failed) command
byte by cmdNone. -/
theorem C4_invalid_state_counterexample :
    (processFrame (initSt ⟨64, fun _ => ⟨0, 0, 0⟩⟩ (fun _ => 0) Mode.random)
      [5, 255, 0, 0]).state = Status.invalidCommand ∧
    (processFrame (initSt ⟨64, fun _ => ⟨0, 0, 0⟩⟩ (fun _ => 0) Mode.random)
      [5, 255, 0, 0]).state ≠ Status.invalidState := by
  exact ⟨rfl, by intro h; exact Status.noConfusion h⟩

/-- C4 — amended. A payload byte arriving before any command tag has
been recognized is dispatched to cmdNone and yields status
INVALID_COMMAND, not INVALID_STATE; the INVALID_STATE branches of the
handlers (entered only when count is negative) are unreachable from the
drain loop, so no frame ever ends with status INVALID_STATE. -/
theorem C4_premature_payload_amended :
    (∀ (st : FrameSt) (b : Nat), st.cmd = Cmd.none →
      ¬(b % 256 = 1 ∨ b % 256 = 2 ∨ b % 256 = 3) →
      (processByte st b).state = Status.invalidCommand) ∧
    (∀ (s : Strip) (ld : Nat → Nat) (m : Mode) (bytes : List Nat),
      (processFrame (initSt s ld m) bytes).state ≠ Status.invalidState) := by
  constructor
  · intro st b h1 h2
    rw [processByte_invalid_byte st b h1 h2]
  · intro s ld m bytes
    exact (processFrame_noCmdInv bytes (initSt s ld m)
      ⟨by simp [initSt], by simp [initSt], by simp [initSt], by simp [initSt]⟩).2.2.2

/-- Witness for C4 at a concrete premature payload byte and frame. -/
theorem C4_premature_payload_amended_witness :
    (processByte (initSt ⟨64, fun _ => ⟨0, 0, 0⟩⟩ (fun _ => 0) Mode.random)
      5).state = Status.invalidCommand ∧
    (processFrame (initSt ⟨64, fun _ => ⟨0, 0, 0⟩⟩ (fun _ => 0) Mode.random)
      [5, 255, 0, 0]).state ≠ Status.invalidState :=
  ⟨C4_premature_payload_amended.1 (initSt ⟨64, fun _ => ⟨0, 0, 0⟩⟩ (fun _ => 0)
      Mode.random) 5 rfl (by decide),
   C4_premature_payload_amended.2 ⟨64, fun _ => ⟨0, 0, 0⟩⟩ (fun _ => 0)
      Mode.random [5, 255, 0, 0]⟩

end C4Proofs


section C1C2Proofs

/-- C1 — the code contradicts the claim (and its own doc comment, which
says an out-of-range LED number sets LED_OUT_OF_RANGE): cmdSetLeds
compares the group index i = count / 4 against LED_COUNT instead of the
LED number n read from the payload, and under the guard count less than
LED_COUNT * 4 that comparison can never fail. On the spec's own scenario
payload 5 255 0 0 99 0 0 0 (second group index 99, at or above 64) the
frame ends with status OK — not LED_OUT_OF_RANGE — the out-of-range
write is passed straight to the display driver (which silently ignores
it), later groups would still be processed, and the success response
[0x02, 0x00] is sent. -/
theorem C1_out_of_range_check_dead :
    (processFrame (initSt ⟨64, fun _ => ⟨0, 0, 0⟩⟩ (fun _ => 0) Mode.random)
      [2, 99, 0, 0, 0]).state = Status.ok ∧
    (processFrame (initSt ⟨64, fun _ => ⟨0, 0, 0⟩⟩ (fun _ => 0) Mode.random)
      [2, 5, 255, 0, 0, 99, 0, 0, 0]).state = Status.ok ∧
    (processFrame (initSt ⟨64, fun _ => ⟨0, 0, 0⟩⟩ (fun _ => 0) Mode.random)
      [2, 5, 255, 0, 0, 99, 0, 0, 0]).state ≠ Status.ledOutOfRange ∧
    (processFrame (initSt ⟨64, fun _ => ⟨0, 0, 0⟩⟩ (fun _ => 0) Mode.random)
      [2, 5, 255, 0, 0, 99, 0, 0, 0]).strip.px 5 = ⟨255, 0, 0⟩ ∧
    respond (processFrame (initSt ⟨64, fun _ => ⟨0, 0, 0⟩⟩ (fun _ => 0) Mode.random)
      [2, 5, 255, 0, 0, 99, 0, 0, 0]) = [0x02, 0x00] := by
  refine ⟨rfl, rfl, ?_, rfl, rfl⟩
  intro h
  rw [show (processFrame (initSt ⟨64, fun _ => ⟨0, 0, 0⟩⟩ (fun _ => 0) Mode.random)
    [2, 5, 255, 0, 0, 99, 0, 0, 0]).state = Status.ok from rfl] at h
  exact Status.noConfusion h

/-- C2 — counterexample. Consuming payload byte 0 of a SET_LEDS_ALL
frame does not leave the buffer, the display and the mode unchanged: the
partial frame 0x03 10 already fills every pixel (the two missing
channels coming from the scratch array contents) and forces mode BT. -/
theorem C2_partial_payload_counterexample :
    (processFrame (initSt ⟨64, fun _ => ⟨1, 1, 1⟩⟩ (fun _ => 0) Mode.random)
      [3, 10]).mode = Mode.bt ∧
    Mode.bt ≠ Mode.random ∧
    (processFrame (initSt ⟨64, fun _ => ⟨1, 1, 1⟩⟩ (fun _ => 0) Mode.random)
      [3, 10]).strip.px 0 = ⟨10, 0, 0⟩ ∧
    (⟨10, 0, 0⟩ : Color) ≠ ⟨1, 1, 1⟩ := by
  exact ⟨rfl, by decide, rfl, by decide⟩

/-- C2 — amended. Every payload byte of a SET_LEDS_ALL frame (indices 0,
1 and 2) triggers a fill of the whole buffer with the channel bytes
received so far (missing channels taken from the scratch ledData array),
a flush, status OK and mode BT; in particular byte 0 already changes the
buffer, display and mode. The complete frame 0x03 r g b still ends with
every LED equal to Color(r, g, b), status OK and response [0x03, 0x00]. -/
theorem C2_set_leds_all_amended (s0 : Strip) (ld0 : Nat → Nat) (m : Mode)
    (r g b : Nat) (hr : r < 256) (hg : g < 256) (hb : b < 256) :
    ((processFrame (initSt s0 ld0 m) [3, r]).mode = Mode.bt ∧
     (processFrame (initSt s0 ld0 m) [3, r]).state = Status.ok ∧
     ∀ i, (processFrame (initSt s0 ld0 m) [3, r]).strip.px i =
       ⟨r, ld0 1 % 256, ld0 2 % 256⟩) ∧
    ((processFrame (initSt s0 ld0 m) [3, r, g, b]).state = Status.ok ∧
     (processFrame (initSt s0 ld0 m) [3, r, g, b]).mode = Mode.bt ∧
     (∀ i, (processFrame (initSt s0 ld0 m) [3, r, g, b]).strip.px i = ⟨r, g, b⟩) ∧
     respond (processFrame (initSt s0 ld0 m) [3, r, g, b]) = [0x03, 0x00]) := by
  have hru : r % 256 = r := Nat.mod_eq_of_lt hr
  have hgu : g % 256 = g := Nat.mod_eq_of_lt hg
  have hbu : b % 256 = b := Nat.mod_eq_of_lt hb
  refine ⟨⟨rfl, rfl, fun i => ?_⟩, rfl, rfl, fun i => ?_, rfl⟩
  · simp [processFrame, processByte, cmdNone, cmdSetLedsAll, initSt, Strip.fill, hru]
  · simp [processFrame, processByte, cmdNone, cmdSetLedsAll, initSt, Strip.fill,
      hru, hgu, hbu]

/-- Witness for C2 at a concrete strip, scratch array and color. -/
theorem C2_set_leds_all_amended_witness :
    (processFrame (initSt ⟨64, fun _ => ⟨1, 1, 1⟩⟩ (fun _ => 0) Mode.random)
      [3, 10, 20, 30]).strip.px 63 = ⟨10, 20, 30⟩ ∧
    respond (processFrame (initSt ⟨64, fun _ => ⟨1, 1, 1⟩⟩ (fun _ => 0) Mode.random)
      [3, 10, 20, 30]) = [0x03, 0x00] :=
  ⟨(C2_set_leds_all_amended ⟨64, fun _ => ⟨1, 1, 1⟩⟩ (fun _ => 0) Mode.random
      10 20 30 (by decide) (by decide) (by decide)).2.2.2.1 63,
   (C2_set_leds_all_amended ⟨64, fun _ => ⟨1, 1, 1⟩⟩ (fun _ => 0) Mode.random
      10 20 30 (by decide) (by decide) (by decide)).2.2.2.2⟩

end C1C2Proofs

section C6Proofs

/-- Snapshot contents: for every LED index below the strip size, the
snapshot holds the quadruple (index byte, r, g, b) of that LED's stored
color at offsets 4i..4i+3. -/
theorem snapTo_spec (s : Strip) (old : Nat → Nat) (i : Nat) (hi : i < s.numLEDs)
    (hw : Strip.wf s) :
    snapTo s old (4 * i) = i % 256 ∧ snapTo s old (4 * i + 1) = (s.px i).r ∧
    snapTo s old (4 * i + 2) = (s.px i).g ∧ snapTo s old (4 * i + 3) = (s.px i).b := by
  obtain ⟨hr, hg, hb⟩ := hw i
  have hget : s.getPixelColor i = (s.px i).r * 65536 + (s.px i).g * 256 + (s.px i).b := by
    unfold Strip.getPixelColor
    rw [if_pos hi, Nat.mod_eq_of_lt hr, Nat.mod_eq_of_lt hg, Nat.mod_eq_of_lt hb]
  refine ⟨?_, ?_, ?_, ?_⟩ <;> unfold snapTo
  · rw [if_pos (by omega), if_pos (by omega : 4 * i % 4 = 0),
      show 4 * i / 4 = i by omega]
  · rw [if_pos (by omega), if_neg (by omega : ¬ (4 * i + 1) % 4 = 0),
      if_pos (by omega : (4 * i + 1) % 4 = 1), show (4 * i + 1) / 4 = i by omega, hget]
    omega
  · rw [if_pos (by omega), if_neg (by omega : ¬ (4 * i + 2) % 4 = 0),
      if_neg (by omega : ¬ (4 * i + 2) % 4 = 1),
      if_pos (by omega : (4 * i + 2) % 4 = 2), show (4 * i + 2) / 4 = i by omega, hget]
    omega
  · rw [if_pos (by omega), if_neg (by omega : ¬ (4 * i + 3) % 4 = 0),
      if_neg (by omega : ¬ (4 * i + 3) % 4 = 1),
      if_neg (by omega : ¬ (4 * i + 3) % 4 = 2), show (4 * i + 3) / 4 = i by omega, hget]
    omega

/-- Snapshot invariant of the drain loop relative to the tick-initial
strip s0 and scratch array ld0: before a tag is recognized nothing has
been touched and the status cannot be OK, and while the command is
GET_LEDS the strip is untouched and an OK status means ledData holds the
snapshot of s0 taken over ld0. -/
def GetInv (s0 : Strip) (ld0 : Nat → Nat) (st : FrameSt) : Prop :=
  (st.cmd = Cmd.none → st.strip = s0 ∧ st.ledData = ld0 ∧ st.state ≠ Status.ok) ∧
  (st.cmd = Cmd.getLeds → st.strip = s0 ∧
    (st.state = Status.ok → st.ledData = snapTo s0 ld0))

/-- One drain-loop iteration preserves the snapshot invariant. -/
theorem processByte_getInv (s0 : Strip) (ld0 : Nat → Nat) (st : FrameSt) (d : Nat)
    (hn : NoCmdInv st) (h : GetInv s0 ld0 st) : GetInv s0 ld0 (processByte st d) := by
  obtain ⟨cnt, cm, stt, ld, sp, md⟩ := st
  cases cm
  case none =>
    obtain ⟨hs0, hl0, hok⟩ := h.1 rfl
    replace hs0 : sp = s0 := hs0
    replace hl0 : ld = ld0 := hl0
    replace hok : stt ≠ Status.ok := hok
    by_cases hd1 : d % 256 = 1
    · have hstep : processByte ⟨cnt, Cmd.none, stt, ld, sp, md⟩ d =
          { cmdGetLeds ⟨0, Cmd.getLeds, stt, ld, sp, md⟩ with
            count := (cmdGetLeds ⟨0, Cmd.getLeds, stt, ld, sp, md⟩).count + 1 } := by
        unfold processByte cmdNone
        dsimp only
        rw [if_pos (Or.inl hd1), hd1]
        rfl
      rw [hstep]
      by_cases hst : stt = Status.invalidDataLength
      · have hg : cmdGetLeds ⟨0, Cmd.getLeds, stt, ld, sp, md⟩ =
            ⟨0, Cmd.getLeds, Status.ok, snapTo sp ld, sp, md⟩ := by
          unfold cmdGetLeds
          rw [if_neg (show ¬ ((⟨0, Cmd.getLeds, stt, ld, sp, md⟩ : FrameSt).count < 0)
            from by simp), if_pos ⟨rfl, Or.inl hst⟩]
        rw [hg]
        refine ⟨fun hc => Cmd.noConfusion hc, fun _ => ⟨hs0, fun _ => ?_⟩⟩
        show snapTo sp ld = snapTo s0 ld0
        rw [hs0, hl0]
      · have hg : cmdGetLeds ⟨0, Cmd.getLeds, stt, ld, sp, md⟩ =
            ⟨0, Cmd.getLeds, stt, ld, sp, md⟩ := by
          unfold cmdGetLeds
          rw [if_neg (show ¬ ((⟨0, Cmd.getLeds, stt, ld, sp, md⟩ : FrameSt).count < 0)
            from by simp),
            if_neg (by rintro ⟨_, hx | hx⟩ <;> [exact hst hx; exact hok hx])]
        rw [hg]
        exact ⟨fun hc => Cmd.noConfusion hc,
          fun _ => ⟨hs0, fun h2 => absurd h2 hok⟩⟩
    · by_cases hd2 : d % 256 = 2
      · have hstep : processByte ⟨cnt, Cmd.none, stt, ld, sp, md⟩ d =
            ⟨cnt + 1, Cmd.setLeds, stt, ld, sp, md⟩ := by
          unfold processByte cmdNone
          dsimp only
          rw [if_pos (Or.inr (Or.inl hd2)), hd2]
          rfl
        rw [hstep]
        exact ⟨fun hc => Cmd.noConfusion hc, fun hc => Cmd.noConfusion hc⟩
      · by_cases hd3 : d % 256 = 3
        · have hstep : processByte ⟨cnt, Cmd.none, stt, ld, sp, md⟩ d =
              ⟨cnt + 1, Cmd.setLedsAll, stt, ld, sp, md⟩ := by
            unfold processByte cmdNone
            dsimp only
            rw [if_pos (Or.inr (Or.inr hd3)), hd3]
            rfl
          rw [hstep]
          exact ⟨fun hc => Cmd.noConfusion hc, fun hc => Cmd.noConfusion hc⟩
        · have hstep : processByte ⟨cnt, Cmd.none, stt, ld, sp, md⟩ d =
              ⟨cnt + 1, Cmd.none, Status.invalidCommand, ld, sp, md⟩ := by
            unfold processByte cmdNone
            dsimp only
            rw [if_neg (show ¬ (d % 256 = 1 ∨ d % 256 = 2 ∨ d % 256 = 3) from by tauto)]
            rfl
          rw [hstep]
          exact ⟨fun _ => ⟨hs0, hl0, fun hx => Status.noConfusion hx⟩,
            fun hc => Cmd.noConfusion hc⟩
  case getLeds =>
    have hskip := cmdGetLeds_skip ⟨cnt, Cmd.getLeds, stt, ld, sp, md⟩ (hn.2.2.1 rfl)
    have hstep : processByte ⟨cnt, Cmd.getLeds, stt, ld, sp, md⟩ d =
        ⟨cnt + 1, Cmd.getLeds, stt, ld, sp, md⟩ := by
      unfold processByte
      dsimp only
      rw [hskip]
    rw [hstep]
    obtain ⟨hsp, hsnap⟩ := h.2 rfl
    exact ⟨fun hc => Cmd.noConfusion hc, fun _ => ⟨hsp, hsnap⟩⟩
  case setLeds =>
    have hcc := cmdSetLeds_cmd ⟨cnt, Cmd.setLeds, stt, ld, sp, md⟩ (d % 256)
    refine ⟨fun hc => ?_, fun hc => ?_⟩
    · exact Cmd.noConfusion (hcc.symm.trans hc)
    · exact Cmd.noConfusion (hcc.symm.trans hc)
  case setLedsAll =>
    have hcc := cmdSetLedsAll_cmd ⟨cnt, Cmd.setLedsAll, stt, ld, sp, md⟩ (d % 256)
    refine ⟨fun hc => ?_, fun hc => ?_⟩
    · exact Cmd.noConfusion (hcc.symm.trans hc)
    · exact Cmd.noConfusion (hcc.symm.trans hc)

/-- The whole frame drain preserves the snapshot invariant (together
with the counter invariant it relies on). -/
theorem processFrame_getInv (s0 : Strip) (ld0 : Nat → Nat) (bytes : List Nat) :
    ∀ st : FrameSt, NoCmdInv st → GetInv s0 ld0 st →
      NoCmdInv (processFrame st bytes) ∧ GetInv s0 ld0 (processFrame st bytes) := by
  induction bytes with
  | nil => exact fun st hn h => ⟨hn, h⟩
  | cons b rest ih =>
    intro st hn h
    exact ih (processByte st b) (processByte_noCmdInv st b hn)
      (processByte_getInv s0 ld0 st b hn h)

end C6Proofs

section RespondProofs

/-- Response for a frame whose status is not OK: tag and status only. -/
theorem respond_not_ok (st : FrameSt) (h : st.state ≠ Status.ok) :
    respond st = [st.cmd.toByte, st.state.toByte] := by
  unfold respond
  rw [if_neg h]

/-- Response for a successful GET_LEDS: tag 0x01, status 0x00, then the
ledData payload. -/
theorem respond_getLeds_ok (st : FrameSt) (h1 : st.cmd = Cmd.getLeds)
    (h2 : st.state = Status.ok) : respond st = 1 :: 0 :: ledBytes st := by
  obtain ⟨cnt, cm, stt, ld, sp, md⟩ := st
  replace h1 : cm = Cmd.getLeds := h1
  replace h2 : stt = Status.ok := h2
  subst h1
  subst h2
  rfl

/-- Response for a successful SET_LEDS or SET_LEDS_ALL: tag and status
0x00, no payload. -/
theorem respond_set_ok (st : FrameSt)
    (h1 : st.cmd = Cmd.setLeds ∨ st.cmd = Cmd.setLedsAll)
    (h2 : st.state = Status.ok) : respond st = [st.cmd.toByte, 0] := by
  obtain ⟨cnt, cm, stt, ld, sp, md⟩ := st
  replace h2 : stt = Status.ok := h2
  subst h2
  rcases h1 with h1 | h1
  · replace h1 : cm = Cmd.setLeds := h1
    subst h1
    rfl
  · replace h1 : cm = Cmd.setLedsAll := h1
    subst h1
    rfl

/-- C6 — confirmed. For every frame on the 64-LED buffer that completes
a GET_LEDS command with status OK, the response is exactly 64*4+2 = 258
bytes: tag 0x01, status 0x00, then for every LED index i (ascending,
offsets 2+4i..2+4i+3 via the ledData snapshot) the quadruple (i, r, g, b)
of its current color — the strip is unchanged by such a frame, so the
snapshot shows the colors the buffer held at the tick. For SET_LEDS and
SET_LEDS_ALL frames with status OK, and for every frame whose status is
not OK, the response is exactly tag followed by status with no payload. -/
theorem C6_response_shape (s0 : Strip) (ld0 : Nat → Nat) (m : Mode) (bytes : List Nat)
    (h64 : s0.numLEDs = 64) (hw : Strip.wf s0) (_hne : bytes ≠ []) :
    ((processFrame (initSt s0 ld0 m) bytes).cmd = Cmd.getLeds →
      (processFrame (initSt s0 ld0 m) bytes).state = Status.ok →
      respond (processFrame (initSt s0 ld0 m) bytes) =
        1 :: 0 :: ledBytes (processFrame (initSt s0 ld0 m) bytes) ∧
      (respond (processFrame (initSt s0 ld0 m) bytes)).length = 258 ∧
      (processFrame (initSt s0 ld0 m) bytes).strip = s0 ∧
      (∀ i : Nat, i < 64 →
        (processFrame (initSt s0 ld0 m) bytes).ledData (4 * i) = i ∧
        (processFrame (initSt s0 ld0 m) bytes).ledData (4 * i + 1) = (s0.px i).r ∧
        (processFrame (initSt s0 ld0 m) bytes).ledData (4 * i + 2) = (s0.px i).g ∧
        (processFrame (initSt s0 ld0 m) bytes).ledData (4 * i + 3) = (s0.px i).b)) ∧
    (((processFrame (initSt s0 ld0 m) bytes).cmd = Cmd.setLeds ∨
      (processFrame (initSt s0 ld0 m) bytes).cmd = Cmd.setLedsAll) →
      (processFrame (initSt s0 ld0 m) bytes).state = Status.ok →
      respond (processFrame (initSt s0 ld0 m) bytes) =
        [(processFrame (initSt s0 ld0 m) bytes).cmd.toByte, 0]) ∧
    ((processFrame (initSt s0 ld0 m) bytes).state ≠ Status.ok →
      respond (processFrame (initSt s0 ld0 m) bytes) =
        [(processFrame (initSt s0 ld0 m) bytes).cmd.toByte,
         (processFrame (initSt s0 ld0 m) bytes).state.toByte]) := by
  have hInitN : NoCmdInv (initSt s0 ld0 m) :=
    ⟨by simp [initSt], by simp [initSt], by simp [initSt], by simp [initSt]⟩
  have hInitG : GetInv s0 ld0 (initSt s0 ld0 m) :=
    ⟨fun _ => ⟨rfl, rfl, by simp [initSt]⟩, fun hc => absurd hc (by simp [initSt])⟩
  obtain ⟨hn, hg⟩ := processFrame_getInv s0 ld0 bytes (initSt s0 ld0 m) hInitN hInitG
  refine ⟨fun hc ho => ?_, fun hc ho => respond_set_ok _ hc ho,
    fun hno => respond_not_ok _ hno⟩
  obtain ⟨hsp, hsnap⟩ := hg.2 hc
  have hld := hsnap ho
  refine ⟨respond_getLeds_ok _ hc ho, ?_, hsp, fun i hi => ?_⟩
  · rw [respond_getLeds_ok _ hc ho]
    simp [ledBytes, hsp, h64]
  · have hi64 : i < s0.numLEDs := by omega
    have hs := snapTo_spec s0 ld0 i hi64 hw
    rw [hld]
    exact ⟨by rw [hs.1]; exact Nat.mod_eq_of_lt (by omega),
      hs.2.1, hs.2.2.1, hs.2.2.2⟩

/-- Witness for C6 at a concrete strip and the one-byte GET_LEDS frame. -/
theorem C6_response_shape_witness :
    (respond (processFrame (initSt ⟨64, fun _ => ⟨1, 1, 1⟩⟩ (fun _ => 0)
      Mode.random) [1])).length = 258 ∧
    (processFrame (initSt ⟨64, fun _ => ⟨1, 1, 1⟩⟩ (fun _ => 0)
      Mode.random) [1]).ledData (4 * 5 + 1) = 1 := by
  have h := (C6_response_shape ⟨64, fun _ => ⟨1, 1, 1⟩⟩ (fun _ => 0) Mode.random [1]
    rfl (fun i => ⟨by norm_num, by norm_num, by norm_num⟩) (by simp)).1 rfl rfl
  exact ⟨h.2.1, (h.2.2.2 5 (by norm_num)).2.1⟩

end RespondProofs

section C3Proofs

/-- Dispatch of a byte while the command is SET_LEDS. -/
theorem processByte_setLeds_eq (st : FrameSt) (d : Nat) (h : st.cmd = Cmd.setLeds) :
    processByte st d = { cmdSetLeds st (d % 256) with
      count := (cmdSetLeds st (d % 256)).count + 1 } := by
  obtain ⟨cnt, cm, stt, ld, sp, md⟩ := st
  replace h : cm = Cmd.setLeds := h
  subst h
  rfl

/-- Mid-group SET_LEDS byte: only stored into the scratch array. -/
theorem cmdSetLeds_store (st : FrameSt) (d : Nat) (h0 : ¬ st.count < 0)
    (hlt : st.count < (st.strip.numLEDs * 4 : Int))
    (hst : st.state = Status.invalidDataLength ∨ st.state = Status.ok)
    (hmod : ¬ st.count % 4 = 3) :
    cmdSetLeds st d = { st with
      ledData := fun j => if j = st.count.toNat then d else st.ledData j } := by
  unfold cmdSetLeds
  rw [if_neg h0, if_pos ⟨hlt, hst⟩, if_neg hmod]

/-- Group-closing SET_LEDS byte with an in-range group counter: store,
read the quadruple back, write the pixel, flush, force BT, status OK. -/
theorem cmdSetLeds_commit (st : FrameSt) (d : Nat) (h0 : ¬ st.count < 0)
    (hlt : st.count < (st.strip.numLEDs * 4 : Int))
    (hst : st.state = Status.invalidDataLength ∨ st.state = Status.ok)
    (hmod : st.count % 4 = 3) (hk : ¬ st.strip.numLEDs ≤ st.count.toNat / 4) :
    cmdSetLeds st d = { st with
      ledData := fun j => if j = st.count.toNat then d else st.ledData j,
      strip := st.strip.setPixelColor
        ((fun j => if j = st.count.toNat then d else st.ledData j)
          (st.count.toNat / 4 * 4))
        ((fun j => if j = st.count.toNat then d else st.ledData j)
          (st.count.toNat / 4 * 4 + 1))
        ((fun j => if j = st.count.toNat then d else st.ledData j)
          (st.count.toNat / 4 * 4 + 2))
        ((fun j => if j = st.count.toNat then d else st.ledData j)
          (st.count.toNat / 4 * 4 + 3)),
      mode := Mode.bt, state := Status.ok } := by
  unfold cmdSetLeds
  rw [if_neg h0, if_pos ⟨hlt, hst⟩, if_pos hmod, if_neg hk]

/-- Pixel writes do not change the strip length. -/
theorem setPixelColor_numLEDs (s : Strip) (n r g b : Nat) :
    (s.setPixelColor n r g b).numLEDs = s.numLEDs := by
  unfold Strip.setPixelColor
  split
  all_goals rfl

/-- Pixel writes keep every stored channel below 256. -/
theorem setPixelColor_wf (s : Strip) (n r g b : Nat) (hw : Strip.wf s) :
    Strip.wf (s.setPixelColor n r g b) := by
  unfold Strip.setPixelColor
  split
  · intro i
    dsimp only
    split
    · exact ⟨Nat.mod_lt _ (by norm_num), Nat.mod_lt _ (by norm_num),
        Nat.mod_lt _ (by norm_num)⟩
    · exact hw i
  · exact hw

/-- Applying any group list does not change the strip length. -/
theorem applyGroups_numLEDs (gs : List LedGroup) :
    ∀ s : Strip, (applyGroups s gs).numLEDs = s.numLEDs := by
  induction gs with
  | nil => exact fun s => rfl
  | cons gr gs ih =>
    intro s
    rw [show applyGroups s (gr :: gs) = applyGroups (s.setPixelColor gr.n gr.r gr.g gr.b) gs
      from rfl, ih, setPixelColor_numLEDs]

/-- Applying any group list keeps every stored channel below 256. -/
theorem applyGroups_wf (gs : List LedGroup) :
    ∀ s : Strip, Strip.wf s → Strip.wf (applyGroups s gs) := by
  induction gs with
  | nil => exact fun s h => h
  | cons gr gs ih =>
    intro s h
    exact ih _ (setPixelColor_wf s gr.n gr.r gr.g gr.b h)


/-- Processing one complete in-capacity 4-byte group while the command
is SET_LEDS and the status permits writes: the four bytes are stored at
offsets 4k..4k+3, the quadruple is read back, the pixel written, the
mode forced to BT and the status set to OK. -/
theorem setLeds_group (stt : Status) (ld : Nat → Nat) (sp : Strip) (md : Mode)
    (k n r g b : Nat)
    (hst : stt = Status.invalidDataLength ∨ stt = Status.ok)
    (hk : k < sp.numLEDs)
    (hn : n < 256) (hr : r < 256) (hg : g < 256) (hb : b < 256) :
    processFrame ⟨4 * (k : Int), Cmd.setLeds, stt, ld, sp, md⟩ [n, r, g, b] =
      ⟨4 * (k : Int) + 4, Cmd.setLeds, Status.ok,
       fun j => if j = 4 * k + 3 then b else if j = 4 * k + 2 then g
         else if j = 4 * k + 1 then r else if j = 4 * k then n else ld j,
       sp.setPixelColor n r g b, Mode.bt⟩ := by
  have e1 : processByte ⟨4 * (k : Int), Cmd.setLeds, stt, ld, sp, md⟩ n =
      ⟨4 * (k : Int) + 1, Cmd.setLeds, stt,
       fun j => if j = 4 * k then n else ld j, sp, md⟩ := by
    rw [processByte_setLeds_eq _ n rfl, Nat.mod_eq_of_lt hn,
      cmdSetLeds_store _ n (by omega : ¬ (4 * (k : Int)) < 0)
        (by omega : (4 * (k : Int)) < (sp.numLEDs * 4 : Int)) hst
        (by omega : ¬ (4 * (k : Int)) % 4 = 3)]
    simp only [show (4 * (k : Int)).toNat = 4 * k from by omega]
  have e2 : processByte ⟨4 * (k : Int) + 1, Cmd.setLeds, stt,
      fun j => if j = 4 * k then n else ld j, sp, md⟩ r =
      ⟨4 * (k : Int) + 2, Cmd.setLeds, stt,
       fun j => if j = 4 * k + 1 then r else if j = 4 * k then n else ld j, sp, md⟩ := by
    rw [processByte_setLeds_eq _ r rfl, Nat.mod_eq_of_lt hr,
      cmdSetLeds_store _ r (by omega : ¬ (4 * (k : Int) + 1) < 0)
        (by omega : (4 * (k : Int) + 1) < (sp.numLEDs * 4 : Int)) hst
        (by omega : ¬ (4 * (k : Int) + 1) % 4 = 3)]
    simp only [show (4 * (k : Int) + 1).toNat = 4 * k + 1 from by omega]
    rfl
  have e3 : processByte ⟨4 * (k : Int) + 2, Cmd.setLeds, stt,
      fun j => if j = 4 * k + 1 then r else if j = 4 * k then n else ld j, sp, md⟩ g =
      ⟨4 * (k : Int) + 3, Cmd.setLeds, stt,
       fun j => if j = 4 * k + 2 then g else if j = 4 * k + 1 then r
         else if j = 4 * k then n else ld j, sp, md⟩ := by
    rw [processByte_setLeds_eq _ g rfl, Nat.mod_eq_of_lt hg,
      cmdSetLeds_store _ g (by omega : ¬ (4 * (k : Int) + 2) < 0)
        (by omega : (4 * (k : Int) + 2) < (sp.numLEDs * 4 : Int)) hst
        (by omega : ¬ (4 * (k : Int) + 2) % 4 = 3)]
    simp only [show (4 * (k : Int) + 2).toNat = 4 * k + 2 from by omega]
    rfl
  have e4 : processByte ⟨4 * (k : Int) + 3, Cmd.setLeds, stt,
      fun j => if j = 4 * k + 2 then g else if j = 4 * k + 1 then r
        else if j = 4 * k then n else ld j, sp, md⟩ b =
      ⟨4 * (k : Int) + 4, Cmd.setLeds, Status.ok,
       fun j => if j = 4 * k + 3 then b else if j = 4 * k + 2 then g
         else if j = 4 * k + 1 then r else if j = 4 * k then n else ld j,
       sp.setPixelColor n r g b, Mode.bt⟩ := by
    rw [processByte_setLeds_eq _ b rfl, Nat.mod_eq_of_lt hb,
      cmdSetLeds_commit _ b (by omega : ¬ (4 * (k : Int) + 3) < 0)
        (by omega : (4 * (k : Int) + 3) < (sp.numLEDs * 4 : Int)) hst
        (by omega : (4 * (k : Int) + 3) % 4 = 3)
        (by
          simp only [show (4 * (k : Int) + 3).toNat = 4 * k + 3 from by omega]
          omega)]
    dsimp only
    rw [show (4 * (k : Int) + 3).toNat = 4 * k + 3 from by omega,
      show (4 * k + 3) / 4 = k from by omega,
      show k * 4 = 4 * k from Nat.mul_comm k 4]
    rw [if_neg (show ¬ 4 * k = 4 * k + 3 from by omega),
      if_neg (show ¬ 4 * k = 4 * k + 2 from by omega),
      if_neg (show ¬ 4 * k = 4 * k + 1 from by omega),
      if_pos (rfl : 4 * k = 4 * k),
      if_neg (show ¬ 4 * k + 1 = 4 * k + 3 from by omega),
      if_neg (show ¬ 4 * k + 1 = 4 * k + 2 from by omega),
      if_pos (rfl : 4 * k + 1 = 4 * k + 1),
      if_neg (show ¬ 4 * k + 2 = 4 * k + 3 from by omega),
      if_pos (rfl : 4 * k + 2 = 4 * k + 2),
      if_pos (rfl : 4 * k + 3 = 4 * k + 3)]
    congr 1
  show processByte (processByte (processByte (processByte
    ⟨4 * (k : Int), Cmd.setLeds, stt, ld, sp, md⟩ n) r) g) b = _
  rw [e1, e2, e3, e4]

/-- Processing the payload of a list of SET_LEDS groups that fits the
buffer capacity: the strip receives exactly the group writes in order,
the command stays SET_LEDS, and a nonempty list ends with status OK and
mode BT. -/
theorem setLeds_groups (gs : List LedGroup) :
    ∀ (stt : Status) (ld : Nat → Nat) (sp : Strip) (md : Mode) (k : Nat),
      (stt = Status.invalidDataLength ∨ stt = Status.ok) →
      k + gs.length ≤ sp.numLEDs →
      (∀ gr ∈ gs, gr.n < 256 ∧ gr.r < 256 ∧ gr.g < 256 ∧ gr.b < 256) →
      (processFrame ⟨4 * (k : Int), Cmd.setLeds, stt, ld, sp, md⟩
          (groupBytes gs)).strip = applyGroups sp gs ∧
      (processFrame ⟨4 * (k : Int), Cmd.setLeds, stt, ld, sp, md⟩
          (groupBytes gs)).cmd = Cmd.setLeds ∧
      (processFrame ⟨4 * (k : Int), Cmd.setLeds, stt, ld, sp, md⟩
          (groupBytes gs)).state = (if gs.isEmpty then stt else Status.ok) ∧
      (processFrame ⟨4 * (k : Int), Cmd.setLeds, stt, ld, sp, md⟩
          (groupBytes gs)).mode = (if gs.isEmpty then md else Mode.bt) := by
  induction gs with
  | nil => exact fun stt ld sp md k hst hlen hall => ⟨rfl, rfl, rfl, rfl⟩
  | cons gr gs ih =>
    intro stt ld sp md k hst hlen hall
    obtain ⟨hn, hr, hg, hb⟩ := hall gr (by simp)
    have hk : k < sp.numLEDs := by
      have := gs.length
      simp only [List.length_cons] at hlen
      omega
    have hsplit : processFrame ⟨4 * (k : Int), Cmd.setLeds, stt, ld, sp, md⟩
        (groupBytes (gr :: gs)) =
        processFrame (processFrame ⟨4 * (k : Int), Cmd.setLeds, stt, ld, sp, md⟩
          [gr.n, gr.r, gr.g, gr.b]) (groupBytes gs) := rfl
    rw [hsplit, setLeds_group stt ld sp md k gr.n gr.r gr.g gr.b hst hk hn hr hg hb]
    have hcast : (4 * (k : Int) + 4) = 4 * ((k + 1 : Nat) : Int) := by push_cast; ring
    rw [hcast]
    have hih := ih Status.ok
      (fun j => if j = 4 * k + 3 then gr.b else if j = 4 * k + 2 then gr.g
        else if j = 4 * k + 1 then gr.r else if j = 4 * k then gr.n else ld j)
      (sp.setPixelColor gr.n gr.r gr.g gr.b) Mode.bt (k + 1) (Or.inr rfl)
      (by rw [setPixelColor_numLEDs]; simp only [List.length_cons] at hlen; omega)
      (fun x hx => hall x (by simp [hx]))
    refine ⟨?_, hih.2.1, ?_, ?_⟩
    · rw [hih.1]
      rfl
    · rw [hih.2.2.1]
      cases hgs : gs.isEmpty
      all_goals simp [hgs]
    · rw [hih.2.2.2]
      cases hgs : gs.isEmpty
      all_goals simp [hgs]

/-- The pixel buffer after a group list shows, at every in-range index,
the last group color written there, or the prior color if untouched. -/
theorem applyGroups_lastWrite (gs : List LedGroup) :
    ∀ (s : Strip) (i : Nat), i < s.numLEDs →
      (∀ gr ∈ gs, gr.r < 256 ∧ gr.g < 256 ∧ gr.b < 256) →
      (applyGroups s gs).px i =
        (match lastColorWrite gs i with
         | Option.some c => c
         | Option.none => s.px i) := by
  induction gs with
  | nil => intro s i _ _; rfl
  | cons gr gs ih =>
    intro s i hi hall
    have hstep : applyGroups s (gr :: gs) =
        applyGroups (s.setPixelColor gr.n gr.r gr.g gr.b) gs := rfl
    rw [hstep, ih _ i (by rw [setPixelColor_numLEDs]; exact hi)
      (fun x hx => hall x (by simp [hx]))]
    cases hlw : lastColorWrite gs i with
    | some c =>
      show _ = (match lastColorWrite (gr :: gs) i with
        | Option.some c => c | Option.none => s.px i)
      simp only [lastColorWrite, hlw]
    | none =>
      show _ = (match lastColorWrite (gr :: gs) i with
        | Option.some c => c | Option.none => s.px i)
      simp only [lastColorWrite, hlw]
      obtain ⟨hr, hg, hb⟩ := hall gr (by simp)
      by_cases hn : gr.n = i
      · rw [if_pos hn]
        unfold Strip.setPixelColor
        rw [if_pos (by rw [hn]; exact hi)]
        dsimp only
        rw [if_pos hn.symm, Nat.mod_eq_of_lt hr, Nat.mod_eq_of_lt hg,
          Nat.mod_eq_of_lt hb]
      · rw [if_neg hn]
        unfold Strip.setPixelColor
        split
        · dsimp only
          rw [if_neg (fun hx => hn hx.symm)]
        · rfl

/-- C3 — confirmed. For every buffer size N at least 1 and every
sequence of SET_LEDS groups with valid indices below N (and byte-sized
fields) that fits in one frame, the strip after the SET_LEDS frame is
exactly the group writes applied in order; a GET_LEDS frame processed
afterwards completes with status OK and responds with the snapshot, in
which every touched index carries the last color written to it by the
sequence and every untouched index the color it had before. -/
theorem C3_set_then_get (N : Nat) (s0 : Strip) (ld0 ld1 : Nat → Nat) (m0 m1 : Mode)
    (gs : List LedGroup)
    (_hN : 1 ≤ N) (h0 : s0.numLEDs = N) (hw : Strip.wf s0) (hlen : gs.length ≤ N)
    (hvalid : ∀ gr ∈ gs, gr.n < N ∧ gr.n < 256 ∧ gr.r < 256 ∧ gr.g < 256 ∧ gr.b < 256) :
    (processFrame (initSt s0 ld0 m0) (2 :: groupBytes gs)).strip = applyGroups s0 gs ∧
    processFrame (initSt (processFrame (initSt s0 ld0 m0)
        (2 :: groupBytes gs)).strip ld1 m1) [1] =
      ⟨1, Cmd.getLeds, Status.ok, snapTo (applyGroups s0 gs) ld1,
       applyGroups s0 gs, m1⟩ ∧
    respond (processFrame (initSt (processFrame (initSt s0 ld0 m0)
        (2 :: groupBytes gs)).strip ld1 m1) [1]) =
      1 :: 0 :: ledBytes (processFrame (initSt (processFrame (initSt s0 ld0 m0)
        (2 :: groupBytes gs)).strip ld1 m1) [1]) ∧
    ∀ i, i < N →
      ((processFrame (initSt (processFrame (initSt s0 ld0 m0)
          (2 :: groupBytes gs)).strip ld1 m1) [1]).ledData (4 * i + 1),
       (processFrame (initSt (processFrame (initSt s0 ld0 m0)
          (2 :: groupBytes gs)).strip ld1 m1) [1]).ledData (4 * i + 2),
       (processFrame (initSt (processFrame (initSt s0 ld0 m0)
          (2 :: groupBytes gs)).strip ld1 m1) [1]).ledData (4 * i + 3)) =
        (match lastColorWrite gs i with
         | Option.some c => (c.r, c.g, c.b)
         | Option.none => ((s0.px i).r, (s0.px i).g, (s0.px i).b)) := by
  have hsplit : processFrame (initSt s0 ld0 m0) (2 :: groupBytes gs) =
      processFrame ⟨0, Cmd.setLeds, Status.invalidDataLength, ld0, s0, m0⟩
        (groupBytes gs) := rfl
  have hg := setLeds_groups gs Status.invalidDataLength ld0 s0 m0 0 (Or.inl rfl)
    (by rw [h0]; omega) (fun gr hgr => (hvalid gr hgr).2)
  have hstrip : (processFrame (initSt s0 ld0 m0) (2 :: groupBytes gs)).strip =
      applyGroups s0 gs := by
    rw [hsplit]
    exact hg.1
  have hs1N : (applyGroups s0 gs).numLEDs = N := by
    rw [applyGroups_numLEDs, h0]
  have hs1w : Strip.wf (applyGroups s0 gs) := applyGroups_wf gs s0 hw
  have hget : processFrame (initSt (applyGroups s0 gs) ld1 m1) [1] =
      ⟨1, Cmd.getLeds, Status.ok, snapTo (applyGroups s0 gs) ld1,
       applyGroups s0 gs, m1⟩ := rfl
  refine ⟨hstrip, ?_, ?_, ?_⟩
  · rw [hstrip]
    exact hget
  · rw [hstrip]
    exact respond_getLeds_ok _ (by rw [hget]) (by rw [hget])
  · intro i hi
    rw [hstrip, hget]
    have hsnap := snapTo_spec (applyGroups s0 gs) ld1 i (by rw [hs1N]; exact hi) hs1w
    have hpx := applyGroups_lastWrite gs s0 i (by rw [h0]; exact hi)
      (fun x hx => (hvalid x hx).2.2)
    show (snapTo (applyGroups s0 gs) ld1 (4 * i + 1),
      snapTo (applyGroups s0 gs) ld1 (4 * i + 2),
      snapTo (applyGroups s0 gs) ld1 (4 * i + 3)) = _
    rw [hsnap.2.1, hsnap.2.2.1, hsnap.2.2.2, hpx]
    cases hlw : lastColorWrite gs i
    all_goals simp only [hlw]

/-- Witness for C3: two groups writing LED 5 (last write (9,9,9)) on a
64-LED buffer previously all (1,1,1); the GET_LEDS response shows (9,9,9)
at index 5 and (1,1,1) at the untouched index 7. -/
theorem C3_set_then_get_witness :
    (processFrame (initSt (processFrame (initSt ⟨64, fun _ => ⟨1, 1, 1⟩⟩
        (fun _ => 0) Mode.random)
        (2 :: groupBytes [⟨5, 255, 0, 0⟩, ⟨5, 9, 9, 9⟩])).strip
      (fun _ => 0) Mode.random) [1]).ledData (4 * 5 + 1) = 9 ∧
    (processFrame (initSt (processFrame (initSt ⟨64, fun _ => ⟨1, 1, 1⟩⟩
        (fun _ => 0) Mode.random)
        (2 :: groupBytes [⟨5, 255, 0, 0⟩, ⟨5, 9, 9, 9⟩])).strip
      (fun _ => 0) Mode.random) [1]).ledData (4 * 7 + 1) = 1 := by
  have h := C3_set_then_get 64 ⟨64, fun _ => ⟨1, 1, 1⟩⟩ (fun _ => 0) (fun _ => 0)
    Mode.random Mode.random [⟨5, 255, 0, 0⟩, ⟨5, 9, 9, 9⟩] (by norm_num) rfl
    (fun i => ⟨by norm_num, by norm_num, by norm_num⟩) (by norm_num) (by decide)
  exact ⟨congrArg Prod.fst (h.2.2.2 5 (by norm_num)),
    congrArg Prod.fst (h.2.2.2 7 (by norm_num))⟩

end C3Proofs
